import Mathlib

/-!
Verification of the request-governance and session-rotation subsystem
(`src/rate_limiter.py`, `src/session_manager.py`) against its
natural-language specification.

Shallow embedding conventions:
* Python floats used as delays/timestamps are embedded as rationals (ℚ);
  all delay arithmetic in the source is exact decimal arithmetic on small
  constants, faithfully represented in ℚ.
* `random.uniform(a, b)` is embedded as `a + u * (b - a)` for a caller-supplied
  draw `u ∈ [0, 1]`; `random.random()` as a caller-supplied draw in `[0, 1)`.
* Python ints are embedded as ℤ (or ℕ where the source only ever produces
  non-negative values and performs no subtraction).
-/

namespace Insta

/-! ### `src/rate_limiter.py` — `RateLimitStrategy`, `AdaptiveRateLimiter` -/

/-- The `RateLimitStrategy` enum from `src/rate_limiter.py`. -/
inductive RateLimitStrategy where
  | CONSERVATIVE
  | AGGRESSIVE
  | ADAPTIVE
deriving DecidableEq, Repr

/-- State of `AdaptiveRateLimiter` (`src/rate_limiter.py` lines 18-25).
`last_request_time` is only written by `wait()` and read by nothing the
claims touch; it is carried for fidelity. -/
structure AdaptiveRateLimiter where
  strategy : RateLimitStrategy
  success_count : ℕ
  failure_count : ℕ
  consecutive_failures : ℕ
  last_request_time : ℚ := 0
deriving DecidableEq, Repr

/-- Embedding of `AdaptiveRateLimiter._get_base_delay` (lines 27-33). -/
def get_base_delay : RateLimitStrategy → ℚ × ℚ
  | .CONSERVATIVE => (7/2, 7)
  | .AGGRESSIVE => (1, 3)
  | .ADAPTIVE => (2, 5)

/-- The multiplier computed inside `AdaptiveRateLimiter._calculate_delay`
(lines 35-52): starts at `1.0`; for the ADAPTIVE strategy it is scaled by
the success-rate tier (`>0.9 → ×0.8`, `>0.7 → ×1.0`, else `×1.5`, with the
rate defined as `1.0` when no requests were recorded) and then the
consecutive-failure penalty `min(consecutive_failures * 0.5, 6.0)` is added
when `consecutive_failures > 0`. -/
def calculate_multiplier (st : AdaptiveRateLimiter) : ℚ :=
  if st.strategy = .ADAPTIVE then
    let total : ℕ := st.success_count + st.failure_count
    let success_rate : ℚ := if 0 < total then (st.success_count : ℚ) / (total : ℚ) else 1
    let m : ℚ :=
      if success_rate > 9/10 then 1 * (8/10)
      else if success_rate > 7/10 then 1 * 1
      else 1 * (3/2)
    if 0 < st.consecutive_failures then m + min ((st.consecutive_failures : ℚ) * (1/2)) 6 else m
  else 1

/-- Embedding of `AdaptiveRateLimiter._calculate_delay` (lines 35-57), with the
`random.uniform(delay_min, delay_max)` draw embedded as
`delay_min + u * (delay_max - delay_min)` for `u ∈ [0, 1]`. -/
def calculate_delay (st : AdaptiveRateLimiter) (u : ℚ) : ℚ :=
  let base := get_base_delay st.strategy
  let multiplier := calculate_multiplier st
  let delay_min := base.1 * multiplier
  let delay_max := base.2 * multiplier
  delay_min + u * (delay_max - delay_min)

/-- Embedding of `AdaptiveRateLimiter.record_success` (lines 65-68). -/
def record_success (st : AdaptiveRateLimiter) : AdaptiveRateLimiter :=
  { st with success_count := st.success_count + 1, consecutive_failures := 0 }

/-- Embedding of `AdaptiveRateLimiter.record_failure` (lines 70-73). -/
def record_failure (st : AdaptiveRateLimiter) : AdaptiveRateLimiter :=
  { st with failure_count := st.failure_count + 1,
            consecutive_failures := st.consecutive_failures + 1 }

/-- Result record of `AdaptiveRateLimiter.get_stats` (lines 75-83). -/
structure RateStats where
  success_count : ℕ
  failure_count : ℕ
  consecutive_failures : ℕ
  success_rate : ℚ
deriving DecidableEq, Repr

/-- Embedding of `AdaptiveRateLimiter.get_stats` (lines 75-83): note the success rate
defaults to `0.0` (not `1.0`) when no requests have been recorded. -/
def get_stats (st : AdaptiveRateLimiter) : RateStats :=
  let total : ℕ := st.success_count + st.failure_count
  { success_count := st.success_count
    failure_count := st.failure_count
    consecutive_failures := st.consecutive_failures
    success_rate := if 0 < total then (st.success_count : ℚ) / (total : ℚ) else 0 }

/-! ### `src/rate_limiter.py` — `intelligent_retry` -/

/-- A Python exception value as observed by `intelligent_retry`
(lines 95-104): its lowercased message, its own `status_code` attribute
(absent ↦ `none`), and its `response.status_code` attribute. -/
structure PyErr where
  msg : String
  status_code : Option ℤ := none
  response_status : Option ℤ := none
deriving DecidableEq, Repr

/-- Embedding of `getattr(e, "status_code", None) or getattr(getattr(e, "response", None),
"status_code", None)` (line 98): Python `or` takes the second operand when the
first is falsy (`None` or `0`). -/
def eff_status (e : PyErr) : Option ℤ :=
  match e.status_code with
  | some n => if n = 0 then e.response_status else some n
  | none => e.response_status

/-- The literal alternatives of the regex on line 103. -/
def rate_limit_patterns : List String :=
  ["rate limit", "too many requests", "temporarily blocked",
   "checkpoint_required", "challenge_required", "login required", "blocked"]

/-- The rate-limit classification of `intelligent_retry` (lines 100-104):
status code 429, or the lowercased message containing one of the
throttling/blocking phrases (the regex is a plain alternation of literals,
i.e. substring search). -/
def is_rate_limit (e : PyErr) : Bool :=
  eff_status e == some 429 ||
    rate_limit_patterns.any (fun p => decide (p.data <:+: e.msg.toLower.data))

/-- The backoff computed at lines 107-112 after the `attempt`-th failed
invocation (`attempt ≥ 1`): `min(max_delay, base_delay * 2^(attempt-1) *
multiplier) + random.random() * 1.5`, with `rand ∈ [0,1)` the `random.random()`
draw and the multiplier depending on the rate-limit classification. -/
def backoff_wait (base_delay max_delay : ℚ) (attempt : ℕ) (isRL : Bool) (rand : ℚ) : ℚ :=
  let multiplier : ℚ := if isRL then 2 + (attempt : ℚ) * (12/10) else 1 + (attempt : ℚ) * (1/2)
  min max_delay (base_delay * 2 ^ (attempt - 1) * multiplier) + rand * (3/2)

/-- Outcome of one call of the wrapper produced by `intelligent_retry`:
the wrapped function's value, a raised exception, or the Python `None`
returned when the `while` loop never runs (`max_retries ≤ 0`, line 119's
implicit fall-through). -/
inductive RetryResult (α : Type) where
  | ok (a : α)
  | err (e : PyErr)
  | noneResult
deriving DecidableEq, Repr

/-- One wrapper run of `intelligent_retry` (lines 90-119), embedded with
explicit fuel `= max_retries - attempt` (the loop guard `attempt < max_retries`
holds exactly when the fuel is positive). `action k` is the outcome of the
`(k+1)`-th invocation of the wrapped function; `rand k` the `random.random()`
draw after it fails. Returns the result, the number of invocations made, and
the list of backoff sleeps in order. -/
def retry_go (action : ℕ → Except PyErr α) (base_delay max_delay : ℚ) (rand : ℕ → ℚ)
    (calls : ℕ) (waits : List ℚ) : ℕ → RetryResult α × ℕ × List ℚ
  | 0 => (.noneResult, calls, waits)
  | fuel + 1 =>
    match action calls with
    | .ok a => (.ok a, calls + 1, waits)
    | .error e =>
      let attempt := calls + 1
      let w := backoff_wait base_delay max_delay attempt (is_rate_limit e) (rand calls)
      if fuel = 0 then (.err e, calls + 1, waits ++ [w])
      else retry_go action base_delay max_delay rand (calls + 1) (waits ++ [w]) fuel

/-- The wrapper produced by `intelligent_retry(max_retries, base_delay,
max_delay)` applied once (lines 86-121). `max_retries` is a Python int, so ℤ;
a non-positive value makes the `while` guard fail immediately. -/
def intelligent_retry_run (max_retries : ℤ) (base_delay max_delay : ℚ) (rand : ℕ → ℚ)
    (action : ℕ → Except PyErr α) : RetryResult α × ℕ × List ℚ :=
  retry_go action base_delay max_delay rand 0 [] max_retries.toNat

/-! ### `src/rate_limiter.py` — `RequestThrottler` -/

/-- State of `RequestThrottler` (lines 124-129). -/
structure RequestThrottler where
  requests_per_minute : ℤ
  interval : ℚ
  last_ts : ℚ
deriving DecidableEq, Repr

/-- Embedding of `RequestThrottler.__init__` (lines 126-129): `interval = 60.0 /
max(1, requests_per_minute)`, `_last_ts = 0.0`. -/
def RequestThrottler.init (requests_per_minute : ℤ) : RequestThrottler :=
  { requests_per_minute := requests_per_minute
    interval := 60 / (max 1 requests_per_minute : ℤ)
    last_ts := 0 }

/-- Embedding of `RequestThrottler.can_make_request` (lines 131-140) at wall-clock time
`now`: returns the recommended wait and the updated throttler state. -/
def can_make_request (t : RequestThrottler) (now : ℚ) : ℚ × RequestThrottler :=
  let next_allowed := t.last_ts + t.interval
  if now ≥ next_allowed then (0, { t with last_ts := now })
  else (next_allowed - now, t)

/-- The subsequence of call times at which `can_make_request` admits the
request (returns `0.0`), threading the throttler state through a list of
call times. -/
def admitted_times (t : RequestThrottler) : List ℚ → List ℚ
  | [] => []
  | now :: rest =>
    let r := can_make_request t now
    if r.1 = 0 then now :: admitted_times r.2 rest
    else admitted_times r.2 rest

/-! ### `src/session_manager.py` — `SessionData` and persistence -/

/-- The `SessionData` dataclass (`src/session_manager.py` lines 34-42). Python is
dynamically typed and `from_dict` can populate `sessionid` with `None`
(`d.get("sessionid")`), so the field is embedded as `Option String`, like the
`Optional[str]` field `username`. Counters are Python ints (ℤ); timestamps ℚ. -/
structure SessionData where
  sessionid : Option String
  username : Option String := none
  created_at : ℚ := 0
  last_used : ℚ := 0
  success_count : ℤ := 0
  failure_count : ℤ := 0
  is_active : Bool := true
deriving DecidableEq, Repr

/-- A JSON object as consumed by `SessionData.from_dict` (lines 47-57): for
each known key, `none` means the key is absent or its value is `null`
(Python's `d.get` conflates the two). -/
structure SessionDict where
  sessionid : Option String := none
  username : Option String := none
  created_at : Option ℚ := none
  last_used : Option ℚ := none
  success_count : Option ℤ := none
  failure_count : Option ℤ := none
  is_active : Option Bool := none
deriving DecidableEq, Repr

/-- Embedding of `SessionData.to_dict` (lines 44-45): `asdict` emits every field. -/
def SessionData.to_dict (s : SessionData) : SessionDict :=
  { sessionid := s.sessionid
    username := s.username
    created_at := some s.created_at
    last_used := some s.last_used
    success_count := some s.success_count
    failure_count := some s.failure_count
    is_active := some s.is_active }

/-- Embedding of `SessionData.from_dict` (lines 47-57) with the source's `d.get` defaults. -/
def SessionData.from_dict (d : SessionDict) : SessionData :=
  { sessionid := d.sessionid
    username := d.username
    created_at := d.created_at.getD 0
    last_used := d.last_used.getD 0
    success_count := d.success_count.getD 0
    failure_count := d.failure_count.getD 0
    is_active := d.is_active.getD true }

/-- Modelled from the spec: the at-rest file payload. `json.dumps`/`json.loads`
(standard library, not in `src/`) are modelled at the document level — the
serialized bytes of a list of session dicts stand for the list itself — and
`cryptography.fernet.Fernet` (third-party, not in `src/`) is modelled as an
invertible wrapper: `encrypted doc` is the ciphertext of the serialization of
`doc`, and decryption with the same key recovers exactly `doc` (spec §6: the
encrypted file "holds the symmetric-cipher-encrypted byte payload of that same
JSON document"). -/
inductive FilePayload where
  | plain (doc : List SessionDict)
  | encrypted (doc : List SessionDict)
deriving DecidableEq, Repr

/-- Embedding of `SessionManager._save_sessions_atomic` (lines 86-100), reduced to the file
content it atomically installs: the serialized (and, when `use_encryption`,
encrypted) list of session dicts. -/
def save_sessions_payload (use_encryption : Bool) (sessions : List SessionData) : FilePayload :=
  let doc := sessions.map SessionData.to_dict
  if use_encryption then .encrypted doc else .plain doc

/-- Embedding of `SessionManager._load_sessions` (lines 66-84): a missing file yields an
empty pool; a payload whose form does not match the configured encryption mode
raises inside the `try` (decryption failure or JSON parse failure on
ciphertext) and falls back to an empty pool; otherwise each dict is decoded
with `SessionData.from_dict`. -/
def load_sessions (use_encryption : Bool) (file : Option FilePayload) : List SessionData :=
  match file with
  | none => []
  | some payload =>
    match use_encryption, payload with
    | true, .encrypted doc => doc.map SessionData.from_dict
    | false, .plain doc => doc.map SessionData.from_dict
    | _, _ => []

/-! ### `src/session_manager.py` — `SessionManager` mutations -/

/-- In-memory manager state plus a count of completed
`_save_sessions_atomic` calls (each mutating method persists synchronously;
the counter records that the write happened). -/
structure ManagerState where
  sessions : List SessionData
  saves : ℕ := 0
deriving DecidableEq, Repr

/-- The `for ... if s.sessionid == sessionid: ...; break` pattern shared by
`mark_session_success`, `mark_session_failure` and `reactivate_session`:
update the first matching session, leave the rest unchanged. -/
def update_first (p : SessionData → Bool) (f : SessionData → SessionData) :
    List SessionData → List SessionData
  | [] => []
  | s :: rest => if p s then f s :: rest else s :: update_first p f rest

/-- Embedding of `SessionManager.mark_session_success` (lines 127-136): increment
`success_count`, floor-decrement `failure_count`, force `is_active = True`,
then persist (even when no session matched). -/
def mark_session_success (sessionid : String) (st : ManagerState) : ManagerState :=
  { sessions := update_first (fun s => s.sessionid == some sessionid)
      (fun s => { s with success_count := s.success_count + 1,
                         failure_count := max 0 (s.failure_count - 1),
                         is_active := true }) st.sessions
    saves := st.saves + 1 }

/-- Embedding of `SessionManager.mark_session_failure` (lines 138-149): increment
`failure_count`, deactivate when it reaches 5, then persist. -/
def mark_session_failure (sessionid : String) (st : ManagerState) : ManagerState :=
  { sessions := update_first (fun s => s.sessionid == some sessionid)
      (fun s =>
        let fc := s.failure_count + 1
        { s with failure_count := fc,
                 is_active := if fc ≥ 5 then false else s.is_active }) st.sessions
    saves := st.saves + 1 }

/-- Embedding of `SessionManager.reactivate_session` (lines 151-159): reset
`failure_count` to 0, set `is_active = True`, then persist. -/
def reactivate_session (sessionid : String) (st : ManagerState) : ManagerState :=
  { sessions := update_first (fun s => s.sessionid == some sessionid)
      (fun s => { s with failure_count := 0, is_active := true }) st.sessions
    saves := st.saves + 1 }

/-- Embedding of `SessionManager.add_session` (lines 102-111): no-op when the id is already
present, otherwise append a fresh active session and persist. -/
def add_session (sessionid : String) (username : Option String) (now : ℚ)
    (st : ManagerState) : ManagerState :=
  if st.sessions.any (fun s => s.sessionid == some sessionid) then st
  else { sessions := st.sessions ++
           [{ sessionid := some sessionid, username := username, created_at := now }]
         saves := st.saves + 1 }

/-! ### `src/session_manager.py` — `get_next_session` -/

/-- The sort key of line 120: `(failure_count, last_used)` compared
lexicographically, as a relation. -/
def session_key_le (s t : SessionData) : Prop :=
  s.failure_count < t.failure_count ∨
    (s.failure_count = t.failure_count ∧ s.last_used ≤ t.last_used)

instance (s t : SessionData) : Decidable (session_key_le s t) := by
  unfold session_key_le; infer_instance

/-- The index (into the full session list) and value of the session that
`active_sessions.sort(key)[0]` selects at lines 115-121: the first active
session whose key is minimal among active sessions (Python's sort is stable,
so ties keep the earliest). `none` exactly when no session is active. -/
def best_active : List SessionData → Option (ℕ × SessionData)
  | [] => none
  | s :: rest =>
    match best_active rest with
    | none => if s.is_active then some (0, s) else none
    | some (j, t) =>
      if s.is_active then
        if session_key_le s t then some (0, s) else some (j + 1, t)
      else some (j + 1, t)

/-- Embedding of `SessionManager.get_next_session` (lines 113-125) at wall-clock time
`now`: with no active session, log and return `None` without persisting;
otherwise stamp the selected session's `last_used`, persist, and return it. -/
def get_next_session (now : ℚ) (st : ManagerState) : Option SessionData × ManagerState :=
  match best_active st.sessions with
  | none => (none, st)
  | some (i, s) =>
    let s2 := { s with last_used := now }
    (some s2, { sessions := st.sessions.set i s2, saves := st.saves + 1 })

/-- Result record of `SessionManager.get_session_stats` (lines 161-172). -/
structure SessionStats where
  total_sessions : ℕ
  active_sessions : ℕ
  total_successes : ℤ
  total_failures : ℤ
  sessions : List SessionDict
deriving DecidableEq, Repr

/-- Embedding of `SessionManager.get_session_stats` (lines 161-172). -/
def get_session_stats (st : ManagerState) : SessionStats :=
  { total_sessions := st.sessions.length
    active_sessions := (st.sessions.filter (fun s => s.is_active)).length
    total_successes := (st.sessions.map (fun s => s.success_count)).sum
    total_failures := (st.sessions.map (fun s => s.failure_count)).sum
    sessions := st.sessions.map SessionData.to_dict }

/-! ### Theorems -/

/-- C1, counterexample: on the freshly initialized controller
(`success_count = failure_count = 0`), `get_stats` reports a success rate of
`0.0`, not the `1.0` the claim requires for a zero denominator. -/
theorem get_stats_zero_rate_not_one :
    ¬ ((get_stats { strategy := .ADAPTIVE, success_count := 0, failure_count := 0,
                    consecutive_failures := 0 }).success_rate = 1) := by
  decide

/-- C1 (amended): for every `AdaptiveRateLimiter` state, `get_stats` returns
the three counters unchanged and a `success_rate` equal to
`successCount/(successCount+failureCount)`, defined as `0.0` (not `1.0`) when
the denominator is zero. -/
theorem get_stats_success_rate (st : AdaptiveRateLimiter) :
    (get_stats st).success_count = st.success_count ∧
    (get_stats st).failure_count = st.failure_count ∧
    (get_stats st).consecutive_failures = st.consecutive_failures ∧
    (st.success_count + st.failure_count = 0 → (get_stats st).success_rate = 0) ∧
    (0 < st.success_count + st.failure_count →
      (get_stats st).success_rate =
        (st.success_count : ℚ) / ((st.success_count : ℚ) + (st.failure_count : ℚ))) := by
  refine ⟨rfl, rfl, rfl, ?_, ?_⟩
  · intro h
    simp [get_stats, h]
  · intro h
    simp [get_stats, h]

/-- Witness for `get_stats_success_rate` at a concrete state with 3 successes
and 1 failure. -/
theorem get_stats_success_rate_witness :
    0 < 3 + 1 ∧
    (get_stats { strategy := .ADAPTIVE, success_count := 3, failure_count := 1,
                 consecutive_failures := 0 }).success_rate =
      ((3 : ℕ) : ℚ) / (((3 : ℕ) : ℚ) + ((1 : ℕ) : ℚ)) :=
  ⟨by decide, (get_stats_success_rate _).2.2.2.2 (by decide)⟩

/-- The ADAPTIVE-strategy multiplier with no consecutive failures is exactly
the success-rate tier function. -/
theorem calculate_multiplier_adaptive_cf0 (s f : ℕ) (h : 0 < s + f) :
    calculate_multiplier { strategy := .ADAPTIVE, success_count := s, failure_count := f,
                           consecutive_failures := 0 } =
      (if (s : ℚ) / ((s : ℚ) + (f : ℚ)) > 9/10 then 8/10
       else if (s : ℚ) / ((s : ℚ) + (f : ℚ)) > 7/10 then 1 else 3/2) := by
  have htot : (((s + f : ℕ)) : ℚ) = (s : ℚ) + (f : ℚ) := by push_cast; ring
  simp only [calculate_multiplier, if_pos rfl]
  simp [h, htot]

/-- C5: with `successCount = 9`, `failureCount = 1` (rate exactly `0.9`) and
no consecutive failures, the ADAPTIVE delay multiplier is `1.0` (the `>0.7`
branch): the `>0.9` comparison is strict. A rate strictly above `0.9` yields
multiplier `0.8` and a rate at or below `0.7` yields `1.5`. -/
theorem adaptive_multiplier_boundary :
    calculate_multiplier { strategy := .ADAPTIVE, success_count := 9, failure_count := 1,
                           consecutive_failures := 0 } = 1 ∧
    (∀ s f : ℕ, 0 < s + f →
      ((s : ℚ) / ((s : ℚ) + (f : ℚ)) > 9/10 →
        calculate_multiplier { strategy := .ADAPTIVE, success_count := s, failure_count := f,
                               consecutive_failures := 0 } = 8/10) ∧
      ((s : ℚ) / ((s : ℚ) + (f : ℚ)) ≤ 7/10 →
        calculate_multiplier { strategy := .ADAPTIVE, success_count := s, failure_count := f,
                               consecutive_failures := 0 } = 3/2)) := by
  constructor
  · norm_num [calculate_multiplier]
  · intro s f h
    rw [calculate_multiplier_adaptive_cf0 s f h]
    constructor
    · intro hrate
      rw [if_pos hrate]
    · intro hrate
      rw [if_neg (by linarith), if_neg (by linarith)]

/-- Witness for `adaptive_multiplier_boundary`: 19 successes and 1 failure
(rate `0.95 > 0.9`) gives the `0.8` multiplier. -/
theorem adaptive_multiplier_boundary_witness :
    0 < 19 + 1 ∧
    ((19 : ℕ) : ℚ) / (((19 : ℕ) : ℚ) + ((1 : ℕ) : ℚ)) > 9/10 ∧
    calculate_multiplier { strategy := .ADAPTIVE, success_count := 19, failure_count := 1,
                           consecutive_failures := 0 } = 8/10 :=
  ⟨by decide, by norm_num,
    (adaptive_multiplier_boundary.2 19 1 (by decide)).1 (by norm_num)⟩

/-- Updating leaves the list unchanged when no element matches. -/
theorem update_first_no_match (p : SessionData → Bool) (f : SessionData → SessionData) :
    ∀ l : List SessionData, (∀ t ∈ l, p t = false) → update_first p f l = l := by
  intro l
  induction l with
  | nil => intro _; rfl
  | cons a l ih =>
    intro h
    have ha := h a (by simp)
    simp [update_first, ha, ih (fun t ht => h t (by simp [ht]))]

/-- Updating rewrites exactly the first matching element. -/
theorem update_first_append (p : SessionData → Bool) (f : SessionData → SessionData)
    (s : SessionData) (r : List SessionData) (hs : p s = true) :
    ∀ l : List SessionData, (∀ t ∈ l, p t = false) →
      update_first p f (l ++ s :: r) = l ++ f s :: r := by
  intro l
  induction l with
  | nil => intro _; simp [update_first, hs]
  | cons a l ih =>
    intro h
    have ha := h a (by simp)
    simp [update_first, ha, ih (fun t ht => h t (by simp [ht]))]

/-- C2, counterexample: a session deactivated at `failure_count = 5` is
reactivated by a plain `mark_session_success` — the code forces
`is_active = True` (line 133), contradicting the claim that only
`reactivate` can restore activity. -/
theorem mark_success_reactivation_cex :
    ((mark_session_success "X"
        { sessions := [{ sessionid := some "X", failure_count := 5, is_active := false }] }).sessions.map
      (fun s => (s.failure_count, s.is_active))) = [(4, true)] := by
  decide

/-- C2 (amended): `mark_session_success` on a session deactivated at
`failure_count = 5` decrements the failure count to 4, increments the
success count, and sets `is_active` back to `true` — it reactivates the
session, so an explicit `reactivate_session` (which additionally resets
`failure_count` to 0) is not the only path back to activity. -/
theorem mark_success_after_deactivation (sid : String) (st : ManagerState)
    (l r : List SessionData) (s : SessionData)
    (hsplit : st.sessions = l ++ s :: r)
    (hl : ∀ t ∈ l, ¬ (t.sessionid = some sid))
    (hs : s.sessionid = some sid)
    (hfc : s.failure_count = 5) :
    mark_session_success sid st =
      { sessions := l ++ { s with success_count := s.success_count + 1,
                                  failure_count := 4, is_active := true } :: r,
        saves := st.saves + 1 } ∧
    reactivate_session sid st =
      { sessions := l ++ { s with failure_count := 0, is_active := true } :: r,
        saves := st.saves + 1 } := by
  have hl2 : ∀ t ∈ l, (t.sessionid == some sid) = false := by
    intro t ht
    simpa using hl t ht
  have hs2 : (s.sessionid == some sid) = true := by simpa using hs
  constructor
  · simp only [mark_session_success, hsplit]
    rw [update_first_append _ _ _ _ hs2 _ hl2]
    simp [hfc]
  · simp only [reactivate_session, hsplit]
    rw [update_first_append _ _ _ _ hs2 _ hl2]

/-- Witness for `mark_success_after_deactivation`: the single-session pool
from the counterexample. -/
theorem mark_success_after_deactivation_witness :
    mark_session_success "X"
        { sessions := [{ sessionid := some "X", failure_count := 5, is_active := false }] } =
      { sessions := [{ sessionid := some "X", success_count := 0 + 1,
                       failure_count := 4, is_active := true }],
        saves := 0 + 1 } :=
  (mark_success_after_deactivation "X"
    { sessions := [{ sessionid := some "X", failure_count := 5, is_active := false }] }
    [] [] { sessionid := some "X", failure_count := 5, is_active := false }
    rfl (by simp) rfl rfl).1

/-- C10: `mark_session_success`, `mark_session_failure` and
`reactivate_session` on an id absent from the pool leave every session
record unchanged and raise no error, while still persisting (the save
counter advances) the unchanged pool. -/
theorem absent_session_ops_noop (sid : String) (st : ManagerState)
    (h : ∀ t ∈ st.sessions, ¬ (t.sessionid = some sid)) :
    mark_session_success sid st = { sessions := st.sessions, saves := st.saves + 1 } ∧
    mark_session_failure sid st = { sessions := st.sessions, saves := st.saves + 1 } ∧
    reactivate_session sid st = { sessions := st.sessions, saves := st.saves + 1 } := by
  have h2 : ∀ t ∈ st.sessions, (t.sessionid == some sid) = false := by
    intro t ht
    simpa using h t ht
  refine ⟨?_, ?_, ?_⟩ <;>
    simp [mark_session_success, mark_session_failure, reactivate_session,
          update_first_no_match _ _ _ h2]

/-- Witness for `absent_session_ops_noop`: a one-session pool and a foreign
id. -/
theorem absent_session_ops_noop_witness :
    mark_session_success "nope" { sessions := [{ sessionid := some "A" }], saves := 3 } =
      { sessions := [{ sessionid := some "A" }], saves := 3 + 1 } :=
  (absent_session_ops_noop "nope" _ (by simp)).1

/-- Decoding a serialized session record recovers it field-for-field. -/
theorem from_dict_to_dict (s : SessionData) :
    SessionData.from_dict (SessionData.to_dict s) = s := by
  cases s
  rfl

/-- C8: saving a session pool (serialize, optionally encrypt, atomically
install) and loading it back reproduces the same session records
field-for-field, with encryption both enabled and disabled. -/
theorem save_load_roundtrip (use_encryption : Bool) (sessions : List SessionData) :
    load_sessions use_encryption (some (save_sessions_payload use_encryption sessions)) =
      sessions := by
  have hcomp : SessionData.from_dict ∘ SessionData.to_dict = id := funext from_dict_to_dict
  cases use_encryption <;>
    simp [save_sessions_payload, load_sessions, List.map_map, hcomp]

/-- The selection key order is reflexive. -/
theorem session_key_le_refl (s : SessionData) : session_key_le s s :=
  Or.inr ⟨rfl, le_refl _⟩

/-- The selection key order is transitive. -/
theorem session_key_le_trans {s t u : SessionData}
    (h1 : session_key_le s t) (h2 : session_key_le t u) : session_key_le s u := by
  rcases h1 with h1 | ⟨e1, l1⟩ <;> rcases h2 with h2 | ⟨e2, l2⟩
  · exact Or.inl (h1.trans h2)
  · exact Or.inl (e2 ▸ h1)
  · exact Or.inl (e1 ▸ h2)
  · exact Or.inr ⟨e1.trans e2, l1.trans l2⟩

/-- The selection key order is total. -/
theorem session_key_le_total (s t : SessionData) :
    session_key_le s t ∨ session_key_le t s := by
  rcases lt_trichotomy s.failure_count t.failure_count with h | h | h
  · exact Or.inl (Or.inl h)
  · rcases le_total s.last_used t.last_used with hl | hl
    · exact Or.inl (Or.inr ⟨h, hl⟩)
    · exact Or.inr (Or.inr ⟨h.symm, hl⟩)
  · exact Or.inr (Or.inl h)

/-- Selection returns `none` when the pool has no active session. -/
theorem best_active_eq_none :
    ∀ l : List SessionData, (∀ s ∈ l, s.is_active = false) → best_active l = none := by
  intro l
  induction l with
  | nil => intro _; rfl
  | cons s rest ih =>
    intro h
    have hs := h s (by simp)
    rw [best_active, ih (fun t ht => h t (by simp [ht]))]
    simp [hs]

/-- Soundness of `best_active`: if it returns `none` every session is
inactive; if it returns `(i, s)` then `s` sits at index `i`, is active, and
its `(failure_count, last_used)` key is minimal among active sessions. -/
theorem best_active_spec :
    ∀ l : List SessionData,
      (best_active l = none → ∀ s ∈ l, s.is_active = false) ∧
      (∀ i s, best_active l = some (i, s) →
        l[i]? = some s ∧ s.is_active = true ∧
        ∀ t ∈ l, t.is_active = true → session_key_le s t) := by
  intro l
  induction l with
  | nil => exact ⟨fun _ s hs => absurd hs (List.not_mem_nil s), fun i s h => by simp [best_active] at h⟩
  | cons s rest ih =>
    obtain ⟨ihnone, ihsome⟩ := ih
    constructor
    · intro hnone u hu
      cases hbr : best_active rest with
      | none =>
        cases ha : s.is_active with
        | false =>
          rcases List.mem_cons.mp hu with rfl | hu
          · exact ha
          · exact ihnone hbr u hu
        | true => rw [best_active, hbr] at hnone; simp [ha] at hnone
      | some p =>
        obtain ⟨j, t⟩ := p
        rw [best_active, hbr] at hnone
        cases ha : s.is_active <;> simp [ha] at hnone
        split at hnone <;> simp at hnone
    · intro i u hu
      cases hbr : best_active rest with
      | none =>
        cases ha : s.is_active with
        | false => rw [best_active, hbr] at hu; simp [ha] at hu
        | true =>
          rw [best_active, hbr] at hu
          simp [ha] at hu
          obtain ⟨rfl, rfl⟩ := hu
          refine ⟨by simp, ha, ?_⟩
          intro t ht hta
          rcases List.mem_cons.mp ht with rfl | ht
          · exact session_key_le_refl t
          · exact absurd hta (by simp [ihnone hbr t ht])
      | some p =>
        obtain ⟨j, t⟩ := p
        obtain ⟨hjt, hta, hmin⟩ := ihsome j t hbr
        rw [best_active, hbr] at hu
        cases ha : s.is_active with
        | false =>
          simp [ha] at hu
          obtain ⟨rfl, rfl⟩ := hu
          refine ⟨by simpa using hjt, hta, ?_⟩
          intro v hv hva
          rcases List.mem_cons.mp hv with rfl | hv
          · rw [ha] at hva; exact absurd hva (by simp)
          · exact hmin v hv hva
        | true =>
          simp only [ha] at hu
          by_cases hle : session_key_le s t
          · rw [if_pos trivial, if_pos hle] at hu
            simp at hu
            obtain ⟨rfl, rfl⟩ := hu
            refine ⟨by simp, ha, ?_⟩
            intro v hv hva
            rcases List.mem_cons.mp hv with rfl | hv
            · exact session_key_le_refl v
            · exact session_key_le_trans hle (hmin v hv hva)
          · rw [if_pos trivial, if_neg hle] at hu
            simp at hu
            obtain ⟨rfl, rfl⟩ := hu
            refine ⟨by simpa using hjt, hta, ?_⟩
            intro v hv hva
            rcases List.mem_cons.mp hv with rfl | hv
            · rcases session_key_le_total v t with h | h
              · exact absurd h hle
              · exact h
            · exact hmin v hv hva

/-- C4: `get_next_session` on a pool with no active session returns no
session and leaves the state untouched (no persistence write); on a pool
with at least one active session it returns the active session with the
lexicographically least `(failure_count, last_used)` key, stamps its
`last_used` with the current time, and persists before returning; on the
pool `{A: failures=2, lastUsed=10}`, `{B: failures=2, lastUsed=5}`,
`{C: failures=1, lastUsed=20}` it returns `C`. -/
theorem get_next_session_spec :
    (∀ (now : ℚ) (st : ManagerState), (∀ s ∈ st.sessions, s.is_active = false) →
        get_next_session now st = (none, st)) ∧
    (∀ (now : ℚ) (st : ManagerState), (∃ s ∈ st.sessions, s.is_active = true) →
        ∃ i s, st.sessions[i]? = some s ∧ s.is_active = true ∧
          (∀ t ∈ st.sessions, t.is_active = true → session_key_le s t) ∧
          get_next_session now st =
            (some { s with last_used := now },
             { sessions := st.sessions.set i { s with last_used := now },
               saves := st.saves + 1 })) ∧
    (∀ now : ℚ,
      (get_next_session now
        { sessions := [{ sessionid := some "A", failure_count := 2, last_used := 10 },
                       { sessionid := some "B", failure_count := 2, last_used := 5 },
                       { sessionid := some "C", failure_count := 1, last_used := 20 }] }).1 =
        some { sessionid := some "C", failure_count := 1, last_used := now }) := by
  refine ⟨?_, ?_, ?_⟩
  · intro now st h
    simp [get_next_session, best_active_eq_none st.sessions h]
  · intro now st h
    cases hb : best_active st.sessions with
    | none =>
      obtain ⟨s, hs, hsa⟩ := h
      have := (best_active_spec st.sessions).1 hb s hs
      rw [hsa] at this
      exact absurd this (by simp)
    | some p =>
      obtain ⟨i, s⟩ := p
      obtain ⟨hi, hsa, hmin⟩ := (best_active_spec st.sessions).2 i s hb
      exact ⟨i, s, hi, hsa, hmin, by simp [get_next_session, hb]⟩
  · intro now
    rfl

/-- Witness for `get_next_session_spec`: the empty pool yields no session. -/
theorem get_next_session_spec_witness :
    get_next_session 0 { sessions := [], saves := 0 } =
      (none, { sessions := [], saves := 0 }) :=
  get_next_session_spec.1 0 { sessions := [], saves := 0 } (by simp)

/-- C3: wrapping an action that fails on every invocation with
`intelligent_retry(max_retries = 3)` invokes the action exactly 3 times and
then re-raises the third invocation's error to the caller (the spec's
`RetryExhausted` wrapping the final underlying error) rather than returning
normally or swallowing it. -/
theorem retry_exhaustion_three {α : Type} (b m : ℚ) (rand : ℕ → ℚ)
    (action : ℕ → Except PyErr α) (errs : ℕ → PyErr)
    (hact : ∀ k, action k = .error (errs k)) :
    (intelligent_retry_run 3 b m rand action).1 = .err (errs 2) ∧
    (intelligent_retry_run 3 b m rand action).2.1 = 3 := by
  have h3 : (3 : ℤ).toNat = 3 := rfl
  constructor <;>
    simp [intelligent_retry_run, h3, retry_go, hact 0, hact 1, hact 2]

/-- Witness for `retry_exhaustion_three`: a constantly failing action. -/
theorem retry_exhaustion_three_witness :
    (intelligent_retry_run 3 2 60 (fun _ => 0)
        (fun _ => (.error { msg := "boom" } : Except PyErr ℕ))).1 =
      .err ((fun _ => ({ msg := "boom" } : PyErr)) 2) ∧
    (intelligent_retry_run 3 2 60 (fun _ => 0)
        (fun _ => (.error { msg := "boom" } : Except PyErr ℕ))).2.1 = 3 :=
  retry_exhaustion_three 2 60 (fun _ => 0) _ _ (fun _ => rfl)

/-- C9: with a non-positive `max_retries`, the wrapper's `while` loop never
runs: the wrapped action is never invoked (0 calls), no backoff occurs, no
error is raised, and the call returns Python `None` instead of the action's
value or an exhaustion error. -/
theorem retry_nonpositive_returns_none {α : Type} (max_retries : ℤ) (b m : ℚ)
    (rand : ℕ → ℚ) (action : ℕ → Except PyErr α) (h : max_retries ≤ 0) :
    intelligent_retry_run max_retries b m rand action = (.noneResult, 0, []) := by
  have h0 : max_retries.toNat = 0 := Int.toNat_of_nonpos h
  simp [intelligent_retry_run, h0, retry_go]

/-- Witness for `retry_nonpositive_returns_none` at `max_retries = -2`,
with an action that would succeed if it were ever invoked. -/
theorem retry_nonpositive_returns_none_witness :
    (-2 : ℤ) ≤ 0 ∧
    intelligent_retry_run (-2) 2 60 (fun _ => 0)
        (fun _ => (.ok 7 : Except PyErr ℕ)) = (.noneResult, 0, []) :=
  ⟨by decide, retry_nonpositive_returns_none (-2) 2 60 (fun _ => 0) _ (by decide)⟩

/-- The backoff-sleep accumulator of `retry_go` only grows: the final sleep
list extends the accumulated prefix. -/
theorem retry_go_waits_extend {α : Type} (action : ℕ → Except PyErr α) (b m : ℚ)
    (rand : ℕ → ℚ) :
    ∀ (fuel calls : ℕ) (waits : List ℚ),
      ∃ rest, (retry_go action b m rand calls waits fuel).2.2 = waits ++ rest := by
  intro fuel
  induction fuel with
  | zero => exact fun calls waits => ⟨[], by simp [retry_go]⟩
  | succ n ih =>
    intro calls waits
    cases hact : action calls with
    | ok a => exact ⟨[], by simp [retry_go, hact]⟩
    | error e =>
      by_cases hz : n = 0
      · subst hz
        exact ⟨[backoff_wait b m (calls + 1) (is_rate_limit e) (rand calls)],
          by simp [retry_go, hact]⟩
      · obtain ⟨rest, hr⟩ := ih (calls + 1)
          (waits ++ [backoff_wait b m (calls + 1) (is_rate_limit e) (rand calls)])
        refine ⟨backoff_wait b m (calls + 1) (is_rate_limit e) (rand calls) :: rest, ?_⟩
        simp only [retry_go, hact]
        rw [if_neg hz, hr]
        simp

/-- C7: after the `attempt`-th failed invocation (`attempt = calls + 1 ≥ 1`)
the wrapper sleeps exactly
`min(max_delay, base_delay * 2^(attempt-1) * multiplier) + jitter`, where the
multiplier is `2.0 + attempt*1.2` for rate-limit-class errors (HTTP 429 or a
message matching the throttling/blocking vocabulary) and `1.0 + attempt*0.5`
otherwise, and the jitter `rand * 1.5` lies in `[0, 1.5)` for a uniform draw
`rand ∈ [0, 1)`. -/
theorem retry_backoff_formula :
    (∀ (α : Type) (b m : ℚ) (rand : ℕ → ℚ) (action : ℕ → Except PyErr α)
        (calls fuel : ℕ) (waits : List ℚ) (e : PyErr),
      action calls = .error e → 0 < fuel →
      ∃ rest, (retry_go action b m rand calls waits fuel).2.2 =
        waits ++ backoff_wait b m (calls + 1) (is_rate_limit e) (rand calls) :: rest) ∧
    (∀ (b m r : ℚ) (attempt : ℕ) (isRL : Bool), 1 ≤ attempt → 0 ≤ r → r < 1 →
      backoff_wait b m attempt isRL r =
        min m (b * 2 ^ (attempt - 1) *
          (if isRL then 2 + (attempt : ℚ) * (12/10) else 1 + (attempt : ℚ) * (1/2))) +
          r * (3/2) ∧
      0 ≤ r * (3/2) ∧ r * (3/2) < 3/2) := by
  constructor
  · intro α b m rand action calls fuel waits e hact hfuel
    cases fuel with
    | zero => exact absurd hfuel (by simp)
    | succ n =>
      by_cases hz : n = 0
      · subst hz
        exact ⟨[], by simp [retry_go, hact]⟩
      · obtain ⟨rest, hr⟩ := retry_go_waits_extend action b m rand n (calls + 1)
          (waits ++ [backoff_wait b m (calls + 1) (is_rate_limit e) (rand calls)])
        refine ⟨rest, ?_⟩
        simp only [retry_go, hact]
        rw [if_neg hz, hr]
        simp
  · intro b m r attempt isRL _ hr0 hr1
    refine ⟨rfl, by positivity, ?_⟩
    have : r * (3/2) < 1 * (3/2) := by
      exact mul_lt_mul_of_pos_right hr1 (by norm_num)
    linarith

/-- Witness for `retry_backoff_formula`: a one-shot failing action whose
message matches the rate-limit vocabulary, and a concrete jitter draw. -/
theorem retry_backoff_formula_witness :
    (∃ rest, (retry_go (fun _ => (.error { msg := "rate limit hit" } : Except PyErr ℕ))
        2 60 (fun _ => 0) 0 [] 3).2.2 =
      [] ++ backoff_wait 2 60 (0 + 1) (is_rate_limit { msg := "rate limit hit" })
        ((fun _ => (0 : ℚ)) 0) :: rest) ∧
    (backoff_wait 2 60 1 true (1/2) =
        min 60 (2 * 2 ^ (1 - 1) *
          (if true then 2 + ((1 : ℕ) : ℚ) * (12/10) else 1 + ((1 : ℕ) : ℚ) * (1/2))) +
          (1/2) * (3/2) ∧
      0 ≤ (1/2 : ℚ) * (3/2) ∧ (1/2 : ℚ) * (3/2) < 3/2) :=
  ⟨retry_backoff_formula.1 ℕ 2 60 (fun _ => 0)
      (fun _ => .error { msg := "rate limit hit" }) 0 3 [] _ rfl (by decide),
   retry_backoff_formula.2 2 60 (1/2) 1 true (by decide) (by norm_num) (by norm_num)⟩

/-- Every admitted call time is at least one full interval after the
throttler's current `last_ts`. -/
theorem admitted_times_lower_bound :
    ∀ (calls : List ℚ) (t : RequestThrottler), 0 ≤ t.interval →
      ∀ a ∈ admitted_times t calls, t.last_ts + t.interval ≤ a := by
  intro calls
  induction calls with
  | nil => intro t _ a ha; simp [admitted_times] at ha
  | cons c rest ih =>
    intro t hι a ha
    by_cases hc : t.last_ts + t.interval ≤ c
    · rw [admitted_times] at ha
      rw [show can_make_request t c = (0, { t with last_ts := c }) from by
            simp [can_make_request, hc]] at ha
      simp only [if_pos rfl] at ha
      rcases List.mem_cons.mp ha with rfl | ha
      · exact hc
      · have h2 := ih { t with last_ts := c } hι a ha
        simp only at h2
        linarith
    · rw [admitted_times] at ha
      rw [show can_make_request t c = (t.last_ts + t.interval - c, t) from by
            simp [can_make_request, hc]] at ha
      rw [if_neg (sub_ne_zero_of_ne (fun h => hc (le_of_eq h)))] at ha
      exact ih t hι a ha

/-- Successive (and hence all) admitted times are at least one interval
apart. -/
theorem admitted_times_pairwise :
    ∀ (calls : List ℚ) (t : RequestThrottler), 0 ≤ t.interval →
      List.Pairwise (fun a b => a + t.interval ≤ b) (admitted_times t calls) := by
  intro calls
  induction calls with
  | nil => intro t _; simp [admitted_times]
  | cons c rest ih =>
    intro t hι
    by_cases hc : t.last_ts + t.interval ≤ c
    · rw [admitted_times]
      rw [show can_make_request t c = (0, { t with last_ts := c }) from by
            simp [can_make_request, hc]]
      simp only [if_pos rfl]
      refine List.Pairwise.cons ?_ (ih { t with last_ts := c } hι)
      intro b hb
      have h2 := admitted_times_lower_bound rest { t with last_ts := c } hι b hb
      simpa using h2
    · rw [admitted_times]
      rw [show can_make_request t c = (t.last_ts + t.interval - c, t) from by
            simp [can_make_request, hc]]
      rw [if_neg (sub_ne_zero_of_ne (fun h => hc (le_of_eq h)))]
      exact ih t hι

/-- C6: `can_make_request` returns `0` exactly when `now` has reached
`last_ts + interval` (boundary inclusive); on admission `last_ts` advances
to `now`; at `requests_per_minute = 30` the interval is `2.0` seconds, and
over any sequence of call times every pair of admitted requests is at least
`2.0` seconds apart. -/
theorem throttler_gate_spec :
    (∀ (t : RequestThrottler) (now : ℚ),
        ((can_make_request t now).1 = 0 ↔ t.last_ts + t.interval ≤ now)) ∧
    (∀ (t : RequestThrottler) (now : ℚ), t.last_ts + t.interval ≤ now →
        (can_make_request t now).2.last_ts = now) ∧
    (RequestThrottler.init 30).interval = 2 ∧
    (∀ calls : List ℚ,
        List.Pairwise (fun a b => a + 2 ≤ b)
          (admitted_times (RequestThrottler.init 30) calls)) := by
  have hint : (RequestThrottler.init 30).interval = 2 := by
    norm_num [RequestThrottler.init]
  refine ⟨?_, ?_, hint, ?_⟩
  · intro t now
    constructor
    · intro h0
      by_contra hce
      have hlt : now < t.last_ts + t.interval := lt_of_not_le hce
      rw [show can_make_request t now = (t.last_ts + t.interval - now, t) from by
            simp [can_make_request, fun h => hce h]] at h0
      · have : t.last_ts + t.interval - now > 0 := by linarith
        simp at h0
        linarith
    · intro hc
      simp [can_make_request, hc]
  · intro t now hc
    simp [can_make_request, hc]
  · intro calls
    have hp := admitted_times_pairwise calls (RequestThrottler.init 30) (by rw [hint]; norm_num)
    rw [hint] at hp
    exact hp

/-- Witness for `throttler_gate_spec`: a throttler at `last_ts = 0` with
interval `2` admits a request exactly at time `2` and advances `last_ts`. -/
theorem throttler_gate_spec_witness :
    (RequestThrottler.init 30).last_ts + (RequestThrottler.init 30).interval ≤ 2 ∧
    (can_make_request (RequestThrottler.init 30) 2).2.last_ts = 2 :=
  ⟨by norm_num [RequestThrottler.init],
   throttler_gate_spec.2.1 (RequestThrottler.init 30) 2 (by norm_num [RequestThrottler.init])⟩

end Insta
